import Mathlib

/-!
Verification of the blogicum blog application (`blog/views.py`, `blog/utils.py`,
`blog/urls.py`) against its natural-language specification.

The Django models (`blog/models.py`) and forms (`blog/forms.py`) are not part of
the provided sources; their record shapes are modelled from the specification's
data-model section (Post, Category, Location, Comment, User).  All view and
query logic below is translated directly from `views.py` and `utils.py`.

Conventions of the embedding:
* A database snapshot `Db` holds the rows of each table as lists.
* `timezone.now()` becomes an explicit `now : Int` parameter.
* The current actor (`request.user`) is `Option Nat`: `none` is the anonymous
  user, `some uid` an authenticated user id.  Django's `AnonymousUser` never
  equals a real user, which the `Option` encoding reflects.
* A Django ORM row annotated with `comment_count` becomes a `Row`, whose
  `comment_count` field is `some n` when the Count marker was attached
  and `none` otherwise.
* `get_object_or_404` becomes `List.find?`, with `none` mapped to a NotFound
  response by the caller.
* Django's `filter(category__is_published=True)` performs an inner join on the
  category table: a post whose `category` field is `none` (SQL NULL) is
  excluded, as is a post whose category id matches no stored category.
  `categoryIsPublished` encodes exactly that join semantics.
-/

namespace Blogicum

/-- Modelled from the spec: `Category` — id, title, slug (unique),
`is_published` flag (`blog/models.py` is not among the provided sources). -/
structure Category where
  id : Nat
  title : String
  slug : String
  is_published : Bool
deriving DecidableEq

/-- Modelled from the spec: `Location` — id, name. -/
structure Location where
  id : Nat
  name : String
deriving DecidableEq

/-- Modelled from the spec: `User` — username (unique public identifier). -/
structure User where
  id : Nat
  username : String
deriving DecidableEq

/-- Modelled from the spec: `Post` — id, title, text body, author, optional
category reference, optional location reference, publication timestamp,
`is_published` flag, creation timestamp. -/
structure Post where
  id : Nat
  title : String
  text : String
  author : Nat
  category : Option Nat
  location : Option Nat
  pub_date : Int
  is_published : Bool
  created_at : Int
deriving DecidableEq

/-- Modelled from the spec: `Comment` — id, text body, author, parent post
reference, creation timestamp. -/
structure Comment where
  id : Nat
  text : String
  author : Nat
  post : Nat
  created_at : Int
deriving DecidableEq

/-- A database snapshot: the stored rows of each table. -/
structure Db where
  posts : List Post
  categories : List Category
  comments : List Comment
  users : List User
deriving DecidableEq

/-- Number of comments attached to post `p`; the value Django's
`annotate(comment_count=Count('comments'))` computes for a row. -/
def commentCount (db : Db) (p : Post) : Nat :=
  (db.comments.filter (fun c => c.post == p.id)).length

/-- Join semantics of `filter(category__is_published=True)`: the post's
category id must resolve to a stored category whose flag is set.  A post with
no category (NULL foreign key) does not pass the join. -/
def categoryIsPublished (db : Db) (p : Post) : Bool :=
  match p.category with
  | none => false
  | some cid =>
    match db.categories.find? (fun c => c.id == cid) with
    | none => false
    | some c => c.is_published

/-- Modelled from the spec: the spec's "publicly visible" predicate —
`is_published` is true AND its category (IF ANY) is published AND the
publication timestamp is not in the future.  Used to compare the spec's
reading against the code's filter. -/
def specPubliclyVisible (db : Db) (now : Int) (p : Post) : Bool :=
  p.is_published &&
    (match p.category with
     | none => true
     | some cid =>
       match db.categories.find? (fun c => c.id == cid) with
       | none => false
       | some c => c.is_published) &&
    decide (p.pub_date ≤ now)

/-- The filter applied by `queryset_pattern` when `add_filter` is set:
`is_published=True, pub_date__lte=timezone.now(), category__is_published=True`. -/
def publishedFilter (db : Db) (now : Int) (p : Post) : Bool :=
  p.is_published && decide (p.pub_date ≤ now) && categoryIsPublished db p

/-- A result row of a query: the post together with the optional
`comment_count` attribute attached by annotation. -/
structure Row where
  post : Post
  comment_count : Option Nat
deriving DecidableEq

/-- Insertion step of a key-ascending insertion sort. -/
def insertByKey {α : Type} (key : α → Int) (a : α) : List α → List α
  | [] => [a]
  | b :: l => if key a ≤ key b then a :: b :: l else b :: insertByKey key a l

/-- Insertion sort ascending in `key`.  `order_by('-pub_date')` is this sort
with `key r = -(pub_date r)`. -/
def sortByKey {α : Type} (key : α → Int) : List α → List α
  | [] => []
  | a :: l => insertByKey key a (sortByKey key l)

theorem mem_insertByKey {α : Type} (key : α → Int) (a x : α) (l : List α) :
    x ∈ insertByKey key a l ↔ x = a ∨ x ∈ l := by
  induction l with
  | nil => simp [insertByKey]
  | cons b t ih =>
    simp only [insertByKey]
    by_cases h : key a ≤ key b
    · rw [if_pos h]; simp
    · rw [if_neg h]; simp [ih]; tauto

theorem mem_sortByKey {α : Type} (key : α → Int) (x : α) (l : List α) :
    x ∈ sortByKey key l ↔ x ∈ l := by
  induction l with
  | nil => simp [sortByKey]
  | cons a t ih =>
    simp [sortByKey, mem_insertByKey, ih]

theorem pairwise_insertByKey {α : Type} (key : α → Int) (a : α) (l : List α)
    (h : l.Pairwise (fun x y => key x ≤ key y)) :
    (insertByKey key a l).Pairwise (fun x y => key x ≤ key y) := by
  induction l with
  | nil => simp [insertByKey]
  | cons b t ih =>
    rcases List.pairwise_cons.mp h with ⟨hb, ht⟩
    simp only [insertByKey]
    by_cases hab : key a ≤ key b
    · rw [if_pos hab]
      refine List.pairwise_cons.mpr ⟨?_, h⟩
      intro y hy
      rcases List.mem_cons.mp hy with rfl | hyt
      · exact hab
      · exact le_trans hab (hb y hyt)
    · rw [if_neg hab]
      refine List.pairwise_cons.mpr ⟨?_, ih ht⟩
      intro y hy
      rcases (mem_insertByKey key a y t).mp hy with rfl | hyt
      · exact le_of_not_le hab
      · exact hb y hyt

theorem pairwise_sortByKey {α : Type} (key : α → Int) (l : List α) :
    (sortByKey key l).Pairwise (fun x y => key x ≤ key y) := by
  induction l with
  | nil => simp [sortByKey]
  | cons a t ih => exact pairwise_insertByKey key a (sortByKey key t) ih

/-- Sorted newest-publication first: every row is followed only by rows with a
publication timestamp not later than its own. -/
def newestFirst (rows : List Row) : Prop :=
  rows.Pairwise (fun x y => y.post.pub_date ≤ x.post.pub_date)

theorem newestFirst_sortByKey (rows : List Row) :
    newestFirst (sortByKey (fun r => -r.post.pub_date) rows) := by
  have h := pairwise_sortByKey (fun r => -r.post.pub_date) rows
  unfold newestFirst
  exact h.imp (fun {x y} hxy => by omega)

/-- Pagination constant `VALUE_POSTS_PAGINATE = 10` from `views.py`. -/
def VALUE_POSTS_PAGINATE : Nat := 10

/-- The `queryset_pattern` helper of `views.py`: starts from all posts,
optionally applies the published filter (and, inside it, the category
filter), and — only when `add_comments` is set — attaches the
`comment_count` value and orders by `-pub_date`. -/
def queryset_pattern (db : Db) (now : Int) (add_filter : Bool)
    (category_object : Option Category) (add_comments : Bool)
    (add_category_filter : Bool) : List Row :=
  let queryset := db.posts
  let queryset :=
    if add_filter then
      let queryset := queryset.filter (fun p => publishedFilter db now p)
      if add_category_filter then
        queryset.filter (fun p => p.category == category_object.map Category.id)
      else queryset
    else queryset
  if add_comments then
    sortByKey (fun r => -r.post.pub_date)
      (queryset.map (fun p => { post := p, comment_count := some (commentCount db p) }))
  else
    queryset.map (fun p => { post := p, comment_count := none })

/-- `PostListView.get_queryset`: `queryset_pattern(add_filter=True,
add_comments=True)`. -/
def postListRows (db : Db) (now : Int) : List Row :=
  queryset_pattern db now true none true false

/-- The posts shown on the index page (underlying objects of the index rows). -/
def indexPosts (db : Db) (now : Int) : List Post :=
  (postListRows db now).map Row.post

/-- Redirect targets the views produce (`reverse` / `reverse_lazy` names). -/
inductive Redirect where
  | login : Redirect
  | postDetail : Nat → Redirect
  | profile : String → Redirect
  | index : Redirect
deriving DecidableEq

/-- Outcome of a mutating view.  `forbidden` is HTTP 403 (what Django's
default `handle_no_permission` raises for an authenticated user); the
response vocabulary includes it so that its absence can be stated.
`success r` means the mutation was performed and the response redirects
to `r`; `redirect r` is a redirect WITHOUT any mutation. -/
inductive MutResult where
  | notFound : MutResult
  | forbidden : MutResult
  | redirect : Redirect → MutResult
  | success : Redirect → MutResult
deriving DecidableEq

/-- The `OnlyAuthorMixin` of `views.py`: `test_func` compares the object's
author to `request.user`; on failure `handle_no_permission` redirects the
anonymous user to login and everyone else to the post detail page taken from
the `post_id` URL keyword.  Returns `none` when the permission test passes. -/
def onlyAuthorGate (ownerId : Nat) (actor : Option Nat) (post_id : Nat) :
    Option MutResult :=
  if actor = some ownerId then none
  else
    match actor with
    | none => some (MutResult.redirect Redirect.login)
    | some _ => some (MutResult.redirect (Redirect.postDetail post_id))

/-- Modelled from the spec: the submitted post form fields (`blog/forms.py`
is not among the provided sources; the editable fields are the Post data
fields other than id, author and creation timestamp). -/
structure PostForm where
  title : String
  text : String
  category : Option Nat
  location : Option Nat
  pub_date : Int
  is_published : Bool
deriving DecidableEq

/-- Applies a valid post form to an existing post (`UpdateView` semantics:
id, author and creation timestamp are untouched). -/
def applyPostForm (f : PostForm) (p : Post) : Post :=
  { p with
    title := f.title
    text := f.text
    category := f.category
    location := f.location
    pub_date := f.pub_date
    is_published := f.is_published }

/-- `PostUpdateView`: resolve the post by `post_id` (404 if absent), run the
`OnlyAuthorMixin` gate, and on success save the form and redirect to the
post's detail page. -/
def postUpdate (db : Db) (actor : Option Nat) (post_id : Nat) (form : PostForm) :
    MutResult × Db :=
  match db.posts.find? (fun p => p.id == post_id) with
  | none => (MutResult.notFound, db)
  | some post =>
    match onlyAuthorGate post.author actor post_id with
    | some r => (r, db)
    | none =>
      let posts' := db.posts.map
        (fun p => if p.id == post_id then applyPostForm form p else p)
      (MutResult.success (Redirect.postDetail post_id), { db with posts := posts' })

/-- `PostDeleteView`: resolve the post by `post_id` (404 if absent), run the
`OnlyAuthorMixin` gate, and on success delete the post and redirect to the
index (`success_url = reverse_lazy('blog:index')`). -/
def postDelete (db : Db) (actor : Option Nat) (post_id : Nat) : MutResult × Db :=
  match db.posts.find? (fun p => p.id == post_id) with
  | none => (MutResult.notFound, db)
  | some post =>
    match onlyAuthorGate post.author actor post_id with
    | some r => (r, db)
    | none =>
      let posts' := db.posts.filter (fun p => !(p.id == post_id))
      (MutResult.success Redirect.index, { db with posts := posts' })

/-- `EditCommentView.get_object`: `get_object_or_404(Comment, id=comment_id,
post_id=post_id)` — both the comment id and its parent-post pairing must
match, else 404.  Then the `OnlyAuthorMixin` gate on the comment's author;
on success the comment text is saved and the view redirects to the post's
detail page. -/
def editComment (db : Db) (actor : Option Nat) (post_id comment_id : Nat)
    (newText : String) : MutResult × Db :=
  match db.comments.find? (fun c => c.id == comment_id && c.post == post_id) with
  | none => (MutResult.notFound, db)
  | some c =>
    match onlyAuthorGate c.author actor post_id with
    | some r => (r, db)
    | none =>
      let comments' := db.comments.map
        (fun k => if k.id == comment_id && k.post == post_id then
           { k with text := newText } else k)
      (MutResult.success (Redirect.postDetail post_id), { db with comments := comments' })

/-- `DeleteCommentView.get_object`: same id/post pairing as `EditCommentView`;
on success the comment is deleted and the view redirects to the post's
detail page. -/
def deleteComment (db : Db) (actor : Option Nat) (post_id comment_id : Nat) :
    MutResult × Db :=
  match db.comments.find? (fun c => c.id == comment_id && c.post == post_id) with
  | none => (MutResult.notFound, db)
  | some c =>
    match onlyAuthorGate c.author actor post_id with
    | some r => (r, db)
    | none =>
      let comments' := db.comments.filter
        (fun k => !(k.id == comment_id && k.post == post_id))
      (MutResult.success (Redirect.postDetail post_id), { db with comments := comments' })

/-- Outcome of `PostDetailView.get_object` combined with `DetailView.get`:
`notFound` for a raised 404; `found p` when an object is returned;
`nonePage` when `get_object` falls through all branches and returns `None`,
in which case `DetailView` still renders the page, with no object in it. -/
inductive DetailOutcome where
  | notFound : DetailOutcome
  | found : Post → DetailOutcome
  | nonePage : DetailOutcome
deriving DecidableEq

/-- `PostDetailView.get_object`: 404 if no post has the id; the author gets
the post unconditionally; otherwise a second `get_object_or_404` requires
`is_published=True` and `category__is_published=True` (404 on failure), and
the post is returned only when `pub_date <= timezone.now()` — the function
body has no `else`, so a future-dated post makes it return `None`. -/
def postDetailGetObject (db : Db) (now : Int) (actor : Option Nat)
    (post_id : Nat) : DetailOutcome :=
  match db.posts.find? (fun p => p.id == post_id) with
  | none => DetailOutcome.notFound
  | some post_creator =>
    if some post_creator.author = actor then DetailOutcome.found post_creator
    else
      match db.posts.find?
          (fun p => p.id == post_id && p.is_published && categoryIsPublished db p) with
      | none => DetailOutcome.notFound
      | some post =>
        if post.pub_date ≤ now then DetailOutcome.found post
        else DetailOutcome.nonePage

/-- Modelled from the spec: the comment-submission form (`blog/forms.py` is
not among the provided sources); its only data field is the comment text. -/
structure CommentForm where
  text : String
deriving DecidableEq

/-- An unbound `CommentForm()` as instantiated in `get_context_data`. -/
def CommentForm.empty : CommentForm := { text := "" }

/-- The extra context `PostDetailView.get_context_data` attaches when
`get_object` returned a post. -/
structure DetailContext where
  form : CommentForm
  comments : List Comment
deriving DecidableEq

/-- `PostDetailView.get_context_data`: when `get_object()` is not `None`,
the context gains an empty `CommentForm` and the post's comments ordered by
`created_at` (ascending); otherwise neither key is added. -/
def postDetailContext (db : Db) (now : Int) (actor : Option Nat)
    (post_id : Nat) : Option DetailContext :=
  match postDetailGetObject db now actor post_id with
  | DetailOutcome.found post =>
    some
      { form := CommentForm.empty
        comments := sortByKey (fun c => c.created_at)
          (db.comments.filter (fun c => c.post == post.id)) }
  | _ => none

/-- `CategoryPostsView`: `get_object_category` resolves the category by slug
with `is_published=True` (404 if absent or unpublished), then the queryset is
`queryset_pattern(category_object=..., add_category_filter=True,
add_comments=True, add_filter=True)`.  `none` models the 404. -/
def categoryPostsRows (db : Db) (now : Int) (category_slug : String) :
    Option (List Row) :=
  match db.categories.find? (fun c => c.slug == category_slug && c.is_published) with
  | none => none
  | some category =>
    some (queryset_pattern db now true (some category) true true)

/-- `CategoryPostsView.paginate_by`. -/
def categoryPostsPaginateBy : Nat := VALUE_POSTS_PAGINATE

/-- `PostListView.paginate_by`. -/
def postListPaginateBy : Nat := VALUE_POSTS_PAGINATE

/-- `ProfileView.paginate_by`. -/
def profilePaginateBy : Nat := VALUE_POSTS_PAGINATE

/-- `ProfileView.get_queryset`: resolve the profile user by username (404 if
absent, modelled as `none`).  For the owner, `queryset_pattern()` with all
defaults (no filter, no comment annotation, no ordering) restricted to the
profile's posts; for anyone else `queryset_pattern(add_comments=True,
add_filter=True)` restricted the same way. -/
def profileRows (db : Db) (now : Int) (actor : Option Nat) (username : String) :
    Option (List Row) :=
  match db.users.find? (fun u => u.username == username) with
  | none => none
  | some profile =>
    if actor = some profile.id then
      some ((queryset_pattern db now false none false false).filter
        (fun r => r.post.author == profile.id))
    else
      some ((queryset_pattern db now true none true false).filter
        (fun r => r.post.author == profile.id))

/-- Username of a stored user id (`user.username`); the empty string stands
for a dangling reference, which a consistent database never produces. -/
def usernameOf (db : Db) (uid : Nat) : String :=
  match db.users.find? (fun u => u.id == uid) with
  | none => ""
  | some u => u.username

/-- `PostCreateView` with a valid form: `LoginRequiredMixin` redirects the
anonymous user to login; otherwise `form_valid` sets the new post's author to
`request.user`, the post is saved, and `get_success_url` redirects to the
profile page of the saved post's author. -/
def postCreate (db : Db) (now : Int) (actor : Option Nat) (form : PostForm)
    (newId : Nat) : MutResult × Db :=
  match actor with
  | none => (MutResult.redirect Redirect.login, db)
  | some uid =>
    let p : Post :=
      { id := newId
        title := form.title
        text := form.text
        author := uid
        category := form.category
        location := form.location
        pub_date := form.pub_date
        is_published := form.is_published
        created_at := now }
    (MutResult.success (Redirect.profile (usernameOf db p.author)),
     { db with posts := db.posts ++ [p] })

/-- Equality filters that `utils.query` receives in its `filters` mapping:
each entry constrains one Post column to one value. -/
inductive EqFilter where
  | author_eq : Nat → EqFilter
  | category_eq : Option Nat → EqFilter
  | location_eq : Option Nat → EqFilter
  | is_published_eq : Bool → EqFilter
  | id_eq : Nat → EqFilter
deriving DecidableEq

/-- Whether a post satisfies one equality filter. -/
def matchesEqFilter (p : Post) : EqFilter → Bool
  | EqFilter.author_eq uid => p.author == uid
  | EqFilter.category_eq c => p.category == c
  | EqFilter.location_eq l => p.location == l
  | EqFilter.is_published_eq b => p.is_published == b
  | EqFilter.id_eq i => p.id == i

/-- Whether a post satisfies every filter in the mapping. -/
def matchesAll (p : Post) (filters : List EqFilter) : Bool :=
  filters.all (matchesEqFilter p)

/-- Post columns an `order_by` string of `utils.query` can name. -/
inductive OrderField where
  | pub_date : OrderField
  | created_at : OrderField
  | id : OrderField
deriving DecidableEq

/-- An `order_by` argument: the column name, with `desc` for a leading `-`. -/
structure OrderBy where
  field : OrderField
  desc : Bool
deriving DecidableEq

/-- The default `order_by='-pub_date'` of `utils.query`. -/
def defaultOrderBy : OrderBy := { field := OrderField.pub_date, desc := true }

/-- Sort key realising an `order_by` argument on a result row. -/
def OrderBy.key (ob : OrderBy) (r : Row) : Int :=
  let v : Int :=
    match ob.field with
    | OrderField.pub_date => r.post.pub_date
    | OrderField.created_at => r.post.created_at
    | OrderField.id => Int.ofNat r.post.id
  if ob.desc then -v else v

/-- `utils.query`: filter the base queryset `qs` by all supplied equality
constraints (`select_related` only prefetches and changes no rows), attach
`comment_count` when `need_annotate` is set, and order by `order_by`. -/
def query (db : Db) (qs : List Post) (filters : List EqFilter)
    (need_annotate : Bool) (order_by : OrderBy) : List Row :=
  let queryset := qs.filter (fun p => matchesAll p filters)
  let rows :=
    if need_annotate then
      queryset.map (fun p => { post := p, comment_count := some (commentCount db p) })
    else
      queryset.map (fun p => { post := p, comment_count := (none : Option Nat) })
  sortByKey order_by.key rows

/-! Concrete sample data used by witnesses and counterexamples. -/

/-- A published category. -/
def cat1 : Category := { id := 1, title := "Cat", slug := "cat", is_published := true }

/-- An unpublished category. -/
def cat2 : Category := { id := 2, title := "Hidden", slug := "hid", is_published := false }

/-- A published, non-future post by user 1 in the published category. -/
def p1 : Post :=
  { id := 1, title := "t1", text := "b1", author := 1, category := some 1
    location := none, pub_date := 0, is_published := true, created_at := 0 }

/-- A published, non-future post by user 1 with NO category. -/
def p2 : Post :=
  { id := 2, title := "t2", text := "b2", author := 1, category := none
    location := none, pub_date := 1, is_published := true, created_at := 1 }

/-- A published but future-dated (relative to `now = 3`) post by user 1. -/
def p3 : Post :=
  { id := 3, title := "t3", text := "b3", author := 1, category := some 1
    location := none, pub_date := 5, is_published := true, created_at := 2 }

/-- A comment by user 1 on post 1, created later than `c2`. -/
def c1 : Comment := { id := 1, text := "hello", author := 1, post := 1, created_at := 2 }

/-- A comment by user 2 on post 1, created earlier than `c1`. -/
def c2 : Comment := { id := 2, text := "first", author := 2, post := 1, created_at := 1 }

/-- The sample database: users alice (1) and bob (2), two categories, three
posts by alice, two comments on post 1. -/
def exDb : Db :=
  { posts := [p1, p2, p3]
    categories := [cat1, cat2]
    comments := [c1, c2]
    users := [{ id := 1, username := "alice" }, { id := 2, username := "bob" }] }

/-- A sample valid post form. -/
def exForm : PostForm :=
  { title := "t", text := "x", category := none, location := none
    pub_date := 0, is_published := true }

/-! Helper lemmas about sorting and row projections. -/

theorem mem_map_post_sortByKey (key : Row → Int) (rows : List Row) (p : Post) :
    p ∈ (sortByKey key rows).map Row.post ↔ p ∈ rows.map Row.post := by
  simp only [List.mem_map]
  constructor
  · rintro ⟨r, hr, rfl⟩
    exact ⟨r, (mem_sortByKey key r rows).mp hr, rfl⟩
  · rintro ⟨r, hr, rfl⟩
    exact ⟨r, (mem_sortByKey key r rows).mpr hr, rfl⟩

theorem map_post_map_mk (l : List Post) (o : Post → Option Nat) :
    (l.map (fun p => ({ post := p, comment_count := o p } : Row))).map Row.post = l := by
  induction l with
  | nil => rfl
  | cons a t ih => simp [ih]

/-- The post collection `queryset_pattern` has built before the
`add_comments` step: the stored posts, optionally restricted by the published
filter and then by the category filter. -/
def baseFiltered (db : Db) (now : Int) (add_filter : Bool)
    (category_object : Option Category) (add_category_filter : Bool) :
    List Post :=
  if add_filter then
    let queryset := db.posts.filter (fun p => publishedFilter db now p)
    if add_category_filter then
      queryset.filter (fun p => p.category == category_object.map Category.id)
    else queryset
  else db.posts

theorem queryset_pattern_eq_true (db : Db) (now : Int) (af : Bool)
    (cat : Option Category) (acf : Bool) :
    queryset_pattern db now af cat true acf =
      sortByKey (fun r => -r.post.pub_date)
        ((baseFiltered db now af cat acf).map
          (fun p => { post := p, comment_count := some (commentCount db p) })) :=
  rfl

theorem queryset_pattern_eq_false (db : Db) (now : Int) (af : Bool)
    (cat : Option Category) (acf : Bool) :
    queryset_pattern db now af cat false acf =
      (baseFiltered db now af cat acf).map
        (fun p => { post := p, comment_count := none }) :=
  rfl

theorem baseFiltered_all_filters (db : Db) (now : Int) (cat : Option Category) :
    baseFiltered db now true cat true =
      (db.posts.filter (fun p => publishedFilter db now p)).filter
        (fun p => p.category == cat.map Category.id) :=
  rfl

theorem baseFiltered_filter_only (db : Db) (now : Int) (cat : Option Category) :
    baseFiltered db now true cat false =
      db.posts.filter (fun p => publishedFilter db now p) :=
  rfl

theorem baseFiltered_no_filter (db : Db) (now : Int) (cat : Option Category)
    (acf : Bool) : baseFiltered db now false cat acf = db.posts :=
  rfl

theorem baseFiltered_sublist (db : Db) (now : Int) (af : Bool)
    (cat : Option Category) (acf : Bool) :
    List.Sublist (baseFiltered db now af cat acf) db.posts := by
  cases af with
  | false => exact List.Sublist.refl _
  | true =>
    cases acf with
    | false => exact List.filter_sublist _
    | true =>
      rw [baseFiltered_all_filters]
      exact (List.filter_sublist _).trans (List.filter_sublist _)

/-! Claim C2: index visibility. -/

/-- C2: counterexample.  Post `p2` is stored, its `is_published` flag is true,
it is not future-dated and it has no category, so the claim ("a post with no
category that is published and not future-dated is publicly visible")
requires it to appear in the index, and the spec's visibility predicate
accepts it; yet the index omits it, because
`filter(category__is_published=True)` joins on the category table and drops
every post whose category reference is NULL. -/
theorem index_drops_post_without_category :
    specPubliclyVisible exDb 3 p2 = true ∧ p2 ∈ exDb.posts ∧
      p2 ∉ indexPosts exDb 3 := by
  refine ⟨rfl, by decide, by decide⟩

/-- C2 (amended): a post appears in the global index listing iff it is stored,
its `is_published` flag is true, its category reference resolves to a stored
category whose `is_published` flag is true (in particular a post with no
category never appears), and its publication timestamp is not later than the
current time. -/
theorem index_membership (db : Db) (now : Int) (p : Post) :
    p ∈ indexPosts db now ↔
      p ∈ db.posts ∧ p.is_published = true ∧ categoryIsPublished db p = true ∧
        p.pub_date ≤ now := by
  unfold indexPosts postListRows
  rw [queryset_pattern_eq_true, mem_map_post_sortByKey, map_post_map_mk,
    baseFiltered_filter_only, List.mem_filter, publishedFilter]
  simp [and_assoc]
  intro _ _
  tauto

/-! Claim C10: `queryset_pattern` applies the comment-count marker and the
newest-first order together, exactly when `add_comments` is set. -/

/-- C10: with `add_comments=False` no row returned by `queryset_pattern`
carries a comment count and the rows stay in stored-table order (the returned
posts are a sublist of `db.posts`, so no publication-timestamp reordering
happens), regardless of `add_filter` and the category flags; with
`add_comments=True` every row carries its comment count and the rows are
ordered newest publication first. -/
theorem queryset_pattern_comments_flag (db : Db) (now : Int) (af : Bool)
    (cat : Option Category) (acf : Bool) :
    (∀ r ∈ queryset_pattern db now af cat false acf, r.comment_count = none) ∧
    List.Sublist ((queryset_pattern db now af cat false acf).map Row.post)
      db.posts ∧
    (∀ r ∈ queryset_pattern db now af cat true acf,
      r.comment_count = some (commentCount db r.post)) ∧
    newestFirst (queryset_pattern db now af cat true acf) := by
  refine ⟨?_, ?_, ?_, ?_⟩
  · intro r hr
    rw [queryset_pattern_eq_false] at hr
    rcases List.mem_map.mp hr with ⟨p, _, rfl⟩
    rfl
  · rw [queryset_pattern_eq_false, map_post_map_mk]
    exact baseFiltered_sublist db now af cat acf
  · intro r hr
    rw [queryset_pattern_eq_true, mem_sortByKey] at hr
    rcases List.mem_map.mp hr with ⟨p, _, rfl⟩
    rfl
  · rw [queryset_pattern_eq_true]
    exact newestFirst_sortByKey _

/-- C10: witness — a concrete consequence at `add_comments=False` on the
sample database. -/
theorem queryset_pattern_comments_flag_witness :
    ({ post := p1, comment_count := none } : Row).comment_count = none :=
  (queryset_pattern_comments_flag exDb 3 false none false).1
    { post := p1, comment_count := none } (by decide)

/-! Claim C5: the `utils.query` helper. -/

theorem query_eq_true (db : Db) (qs : List Post) (filters : List EqFilter)
    (ob : OrderBy) :
    query db qs filters true ob =
      sortByKey ob.key
        ((qs.filter (fun p => matchesAll p filters)).map
          (fun p => { post := p, comment_count := some (commentCount db p) })) :=
  rfl

theorem query_eq_false (db : Db) (qs : List Post) (filters : List EqFilter)
    (ob : OrderBy) :
    query db qs filters false ob =
      sortByKey ob.key
        ((qs.filter (fun p => matchesAll p filters)).map
          (fun p => { post := p, comment_count := none })) :=
  rfl

theorem newestFirst_sortByKey_defaultOrderBy (rows : List Row) :
    newestFirst (sortByKey defaultOrderBy.key rows) := by
  refine (pairwise_sortByKey _ _).imp ?_
  intro x y hxy
  have hk : defaultOrderBy.key x ≤ defaultOrderBy.key y := hxy
  simp only [OrderBy.key, defaultOrderBy] at hk
  simp only [if_pos] at hk
  omega

/-- C5: `query` returns exactly the base posts satisfying every supplied
equality filter; when `need_annotate` is set every row carries the number of
its associated comments (and carries no count otherwise); rows are ordered by
the supplied order key, which for the default `-pub_date` argument means
newest publication first; and an unsatisfiable filter yields the empty list
rather than an error (the function is total and touches no state). -/
theorem query_contract (db : Db) (qs : List Post) (filters : List EqFilter)
    (need_annotate : Bool) (order_by : OrderBy) :
    (∀ p, p ∈ (query db qs filters need_annotate order_by).map Row.post ↔
      p ∈ qs ∧ matchesAll p filters = true) ∧
    (need_annotate = true → ∀ r ∈ query db qs filters need_annotate order_by,
      r.comment_count = some (commentCount db r.post)) ∧
    (need_annotate = false → ∀ r ∈ query db qs filters need_annotate order_by,
      r.comment_count = none) ∧
    (query db qs filters need_annotate order_by).Pairwise
      (fun x y => order_by.key x ≤ order_by.key y) ∧
    (order_by = defaultOrderBy →
      newestFirst (query db qs filters need_annotate order_by)) ∧
    ((∀ p ∈ qs, matchesAll p filters = false) →
      query db qs filters need_annotate order_by = []) := by
  refine ⟨?_, ?_, ?_, ?_, ?_, ?_⟩
  · intro p
    cases need_annotate with
    | true =>
      rw [query_eq_true, mem_map_post_sortByKey, map_post_map_mk,
        List.mem_filter]
    | false =>
      rw [query_eq_false, mem_map_post_sortByKey, map_post_map_mk,
        List.mem_filter]
  · intro h r hr
    subst h
    rw [query_eq_true, mem_sortByKey] at hr
    rcases List.mem_map.mp hr with ⟨p, _, rfl⟩
    rfl
  · intro h r hr
    subst h
    rw [query_eq_false, mem_sortByKey] at hr
    rcases List.mem_map.mp hr with ⟨p, _, rfl⟩
    rfl
  · cases need_annotate with
    | true => rw [query_eq_true]; exact pairwise_sortByKey _ _
    | false => rw [query_eq_false]; exact pairwise_sortByKey _ _
  · intro h
    subst h
    cases need_annotate with
    | true => rw [query_eq_true]; exact newestFirst_sortByKey_defaultOrderBy _
    | false => rw [query_eq_false]; exact newestFirst_sortByKey_defaultOrderBy _
  · intro h
    have hfil : qs.filter (fun p => matchesAll p filters) = [] := by
      rw [List.filter_eq_nil_iff]
      intro p hp
      simp [h p hp]
    cases need_annotate with
    | true => rw [query_eq_true, hfil]; rfl
    | false => rw [query_eq_false, hfil]; rfl

/-- C5: witness — `p1` satisfies the `author_eq 1` filter and is returned by
`query` over the sample database. -/
theorem query_contract_witness :
    p1 ∈ (query exDb exDb.posts [EqFilter.author_eq 1] true
      defaultOrderBy).map Row.post :=
  ((query_contract exDb exDb.posts [EqFilter.author_eq 1] true
    defaultOrderBy).1 p1).mpr (by decide)

/-! Claim C1: authorization on mutating post/comment operations. -/

/-- C1: counterexample.  User 2 is authenticated and is not the author of
post 1 (whose author is user 1), yet `PostUpdateView` answers with a plain
redirect to the post's detail page — `OnlyAuthorMixin.handle_no_permission`
in `views.py` redirects every authenticated non-author instead of raising
a Forbidden response, so the rejection is exactly the silent redirect the
claim rules out. -/
theorem post_update_non_author_redirects :
    postUpdate exDb (some 2) 1 exForm =
      (MutResult.redirect (Redirect.postDetail 1), exDb) ∧
    (postUpdate exDb (some 2) 1 exForm).1 ≠ MutResult.forbidden := by
  refine ⟨by decide, by decide⟩

/-- C1 (amended): for each mutating operation on an existing post or comment,
an anonymous actor is redirected to the authentication entry point with no
mutation; an authenticated non-author actor is NOT given a Forbidden
response but is silently redirected to the associated post's detail page,
again with no mutation; and the author's request succeeds, redirecting to
the post's detail page (post edit, comment edit, comment delete) or to the
global index (post delete). -/
theorem mutating_ops_authorization (db : Db) (post : Post) (c : Comment)
    (uid pid cid : Nat) (form : PostForm) (txt : String)
    (hp : db.posts.find? (fun q => q.id == pid) = some post)
    (hc : db.comments.find? (fun k => k.id == cid && k.post == pid) = some c) :
    (postUpdate db none pid form = (MutResult.redirect Redirect.login, db) ∧
     postDelete db none pid = (MutResult.redirect Redirect.login, db) ∧
     editComment db none pid cid txt = (MutResult.redirect Redirect.login, db) ∧
     deleteComment db none pid cid = (MutResult.redirect Redirect.login, db)) ∧
    (uid ≠ post.author →
      postUpdate db (some uid) pid form =
        (MutResult.redirect (Redirect.postDetail pid), db) ∧
      postDelete db (some uid) pid =
        (MutResult.redirect (Redirect.postDetail pid), db)) ∧
    (uid ≠ c.author →
      editComment db (some uid) pid cid txt =
        (MutResult.redirect (Redirect.postDetail pid), db) ∧
      deleteComment db (some uid) pid cid =
        (MutResult.redirect (Redirect.postDetail pid), db)) ∧
    ((postUpdate db (some post.author) pid form).1 =
       MutResult.success (Redirect.postDetail pid) ∧
     (postDelete db (some post.author) pid).1 = MutResult.success Redirect.index ∧
     (editComment db (some c.author) pid cid txt).1 =
       MutResult.success (Redirect.postDetail pid) ∧
     (deleteComment db (some c.author) pid cid).1 =
       MutResult.success (Redirect.postDetail pid)) := by
  unfold postUpdate postDelete editComment deleteComment onlyAuthorGate
  rw [hp, hc]
  refine ⟨⟨?_, ?_, ?_, ?_⟩, ?_, ?_, ⟨?_, ?_, ?_, ?_⟩⟩ <;>
    simp
  · intro h
    constructor <;> · rw [if_neg h]
  · intro h
    constructor <;> · rw [if_neg h]

/-- C1 (amended): witness at the sample database — post 1 and comment 1 both
exist under post id 1. -/
theorem mutating_ops_authorization_witness :
    (postUpdate exDb none 1 exForm = (MutResult.redirect Redirect.login, exDb) ∧
     postDelete exDb none 1 = (MutResult.redirect Redirect.login, exDb) ∧
     editComment exDb none 1 1 "y" = (MutResult.redirect Redirect.login, exDb) ∧
     deleteComment exDb none 1 1 = (MutResult.redirect Redirect.login, exDb)) ∧
    (2 ≠ p1.author →
      postUpdate exDb (some 2) 1 exForm =
        (MutResult.redirect (Redirect.postDetail 1), exDb) ∧
      postDelete exDb (some 2) 1 =
        (MutResult.redirect (Redirect.postDetail 1), exDb)) ∧
    (2 ≠ c1.author →
      editComment exDb (some 2) 1 1 "y" =
        (MutResult.redirect (Redirect.postDetail 1), exDb) ∧
      deleteComment exDb (some 2) 1 1 =
        (MutResult.redirect (Redirect.postDetail 1), exDb)) ∧
    ((postUpdate exDb (some p1.author) 1 exForm).1 =
       MutResult.success (Redirect.postDetail 1) ∧
     (postDelete exDb (some p1.author) 1).1 = MutResult.success Redirect.index ∧
     (editComment exDb (some c1.author) 1 1 "y").1 =
       MutResult.success (Redirect.postDetail 1) ∧
     (deleteComment exDb (some c1.author) 1 1).1 =
       MutResult.success (Redirect.postDetail 1)) :=
  mutating_ops_authorization exDb p1 c1 2 1 1 exForm "y" (by decide) (by decide)

/-! Claim C3: post detail resolution. -/

/-- C3: the code at the failing input.  Post 3 exists, is published, has a
published category, but is future-dated (`pub_date = 5 > now = 3`); requester
user 2 is not its author.  The claim requires a NotFound response, but
`PostDetailView.get_object` falls through its final `if` and returns `None`,
so the page renders with a missing object (`nonePage`) instead of raising
404 — while the no-post, author, unpublished and unpublished-category paths
behave as the claim says. -/
theorem post_detail_future_dated_returns_none :
    postDetailGetObject exDb 3 (some 2) 3 = DetailOutcome.nonePage ∧
    DetailOutcome.nonePage ≠ DetailOutcome.notFound ∧
    postDetailGetObject exDb 3 (some 2) 42 = DetailOutcome.notFound ∧
    postDetailGetObject exDb 3 (some 1) 3 = DetailOutcome.found p3 := by
  refine ⟨by decide, by decide, by decide, by decide⟩

/-! Claim C6: comment id / post pairing. -/

/-- C6: when no stored comment has the given id, or the comment with that id
belongs to a different post, both the comment-edit and the comment-delete
operations answer NotFound and leave the database unchanged — the mismatch
is never silently ignored. -/
theorem comment_pairing_notFound (db : Db) (actor : Option Nat)
    (pid cid : Nat) (txt : String)
    (h : ∀ k ∈ db.comments, k.id = cid → k.post ≠ pid) :
    editComment db actor pid cid txt = (MutResult.notFound, db) ∧
    deleteComment db actor pid cid = (MutResult.notFound, db) := by
  have hfind : db.comments.find? (fun k => k.id == cid && k.post == pid) = none := by
    rw [List.find?_eq_none]
    intro k hk
    simp only [Bool.and_eq_true, beq_iff_eq, not_and]
    intro hid
    simpa using h k hk hid
  unfold editComment deleteComment
  rw [hfind]
  exact ⟨rfl, rfl⟩

/-- C6: witness — comment 1 exists but belongs to post 1, so asking for it
under post 2 is a mismatch: both operations answer NotFound and mutate
nothing. -/
theorem comment_pairing_notFound_witness :
    editComment exDb (some 1) 2 1 "y" = (MutResult.notFound, exDb) ∧
    deleteComment exDb (some 1) 2 1 = (MutResult.notFound, exDb) :=
  comment_pairing_notFound exDb (some 1) 2 1 "y" (by decide)

/-! Claim C8: post creation. -/

/-- C8: the post-create operation redirects an anonymous requester to the
authentication entry point without storing anything; for an authenticated
requester it stores exactly one new post whose author field is the requester
and responds with a redirect to the requester's own profile page. -/
theorem post_create_contract (db : Db) (now : Int) (form : PostForm)
    (newId uid : Nat) :
    postCreate db now none form newId = (MutResult.redirect Redirect.login, db) ∧
    (postCreate db now (some uid) form newId).1 =
      MutResult.success (Redirect.profile (usernameOf db uid)) ∧
    ∃ p, (postCreate db now (some uid) form newId).2.posts = db.posts ++ [p] ∧
      p.author = uid :=
  ⟨rfl, rfl, ⟨_, rfl, rfl⟩⟩

/-! Claim C9: post detail context. -/

/-- C9: whenever the detail view resolves a post, the response context holds
an empty comment-submission form together with every stored comment of that
post — none filtered by any published flag — ordered by creation time
ascending. -/
theorem post_detail_context_contract (db : Db) (now : Int) (actor : Option Nat)
    (pid : Nat) (post : Post)
    (h : postDetailGetObject db now actor pid = DetailOutcome.found post) :
    ∃ ctx, postDetailContext db now actor pid = some ctx ∧
      ctx.form = CommentForm.empty ∧
      (∀ c : Comment, c ∈ ctx.comments ↔ c ∈ db.comments ∧ c.post = post.id) ∧
      ctx.comments.Pairwise (fun x y => x.created_at ≤ y.created_at) := by
  unfold postDetailContext
  rw [h]
  refine ⟨{ form := CommentForm.empty
            comments := sortByKey (fun c : Comment => c.created_at)
              (db.comments.filter (fun c => c.post == post.id)) },
    rfl, rfl, ?_, ?_⟩
  · intro c
    rw [mem_sortByKey, List.mem_filter]
    simp
  · exact pairwise_sortByKey (fun c : Comment => c.created_at) _

/-- C9: witness — the author of post 1 resolves its detail page on the sample
database; the context holds the empty form and both comments in creation
order. -/
theorem post_detail_context_contract_witness :
    ∃ ctx, postDetailContext exDb 3 (some 1) 1 = some ctx ∧
      ctx.form = CommentForm.empty ∧
      (∀ c : Comment, c ∈ ctx.comments ↔ c ∈ exDb.comments ∧ c.post = p1.id) ∧
      ctx.comments.Pairwise (fun x y => x.created_at ≤ y.created_at) :=
  post_detail_context_contract exDb 3 (some 1) 1 p1 (by decide)

/-! Claim C4: profile listing. -/

/-- C4: counterexample.  Alice (user 1) views her own profile on the sample
database: the listing does contain all three of her posts — including the
no-category one and the future-dated one — but every row's comment count is
absent, although post 1 has two stored comments: the owner branch of
`ProfileView.get_queryset` calls `queryset_pattern()` with all defaults, so
no `comment_count` is attached (and no `-pub_date` ordering is applied),
contradicting the claim's "annotated with comment counts and ordered
newest-publication first" for the owner. -/
theorem profile_owner_rows_unannotated :
    profileRows exDb 3 (some 1) "alice" =
      some [{ post := p1, comment_count := none },
            { post := p2, comment_count := none },
            { post := p3, comment_count := none }] ∧
    commentCount exDb p1 = 2 := by
  refine ⟨by decide, by decide⟩

theorem profileRows_eq_some (db : Db) (now : Int) (actor : Option Nat)
    (uname : String) (profile : User)
    (hfind : db.users.find? (fun u => u.username == uname) = some profile) :
    profileRows db now actor uname =
      if actor = some profile.id then
        some ((queryset_pattern db now false none false false).filter
          (fun r => r.post.author == profile.id))
      else
        some ((queryset_pattern db now true none true false).filter
          (fun r => r.post.author == profile.id)) := by
  unfold profileRows
  rw [hfind]

/-- C4 (amended): the profile view answers NotFound exactly when no stored
user carries the target username.  When the requester IS the target user, the
listing contains ALL of that user's posts — including unpublished and
future-dated ones — but WITHOUT comment-count values and in stored-table
order (no newest-first reordering is applied).  When the requester is any
other actor, the listing contains exactly the target's posts that pass the
code's visibility filter (published, non-future, with an existing published
category), each annotated with its comment count, ordered
newest-publication first. -/
theorem profile_listing (db : Db) (now : Int) (actor : Option Nat)
    (uname : String) :
    (profileRows db now actor uname = none ↔
      ∀ u ∈ db.users, u.username ≠ uname) ∧
    (∀ profile, db.users.find? (fun u => u.username == uname) = some profile →
      ∃ rows, profileRows db now actor uname = some rows ∧
        (actor = some profile.id →
          (∀ p, p ∈ rows.map Row.post ↔ p ∈ db.posts ∧ p.author = profile.id) ∧
          (∀ r ∈ rows, r.comment_count = none) ∧
          List.Sublist (rows.map Row.post) db.posts) ∧
        (actor ≠ some profile.id →
          (∀ p, p ∈ rows.map Row.post ↔
            p ∈ db.posts ∧ p.author = profile.id ∧ p.is_published = true ∧
              p.pub_date ≤ now ∧ categoryIsPublished db p = true) ∧
          (∀ r ∈ rows, r.comment_count = some (commentCount db r.post)) ∧
          newestFirst rows)) := by
  constructor
  · cases hfind : db.users.find? (fun u => u.username == uname) with
    | none =>
      rw [List.find?_eq_none] at hfind
      constructor
      · intro _ u hu
        simpa using hfind u hu
      · intro _
        unfold profileRows
        rw [List.find?_eq_none.mpr (by intro u hu; simpa using hfind u hu)]
    | some profile =>
      constructor
      · intro hnone
        rw [profileRows_eq_some db now actor uname profile hfind] at hnone
        by_cases hact : actor = some profile.id
        · rw [if_pos hact] at hnone
          cases hnone
        · rw [if_neg hact] at hnone
          cases hnone
      · intro hall
        have hmem := List.mem_of_find?_eq_some hfind
        have hpred := List.find?_some hfind
        rw [beq_iff_eq] at hpred
        exact absurd hpred (hall profile hmem)
  · intro profile hfind
    rw [profileRows_eq_some db now actor uname profile hfind]
    by_cases hact : actor = some profile.id
    · rw [if_pos hact]
      refine ⟨_, rfl, ?_, ?_⟩
      · intro _
        rw [queryset_pattern_eq_false, baseFiltered_no_filter]
        refine ⟨?_, ?_, ?_⟩
        · intro p
          constructor
          · intro hp
            rcases List.mem_map.mp hp with ⟨r, hr, rfl⟩
            rcases List.mem_filter.mp hr with ⟨hr1, hr2⟩
            rcases List.mem_map.mp hr1 with ⟨q, hq, rfl⟩
            exact ⟨hq, by simpa using hr2⟩
          · rintro ⟨hp, ha⟩
            refine List.mem_map.mpr
              ⟨{ post := p, comment_count := none }, ?_, rfl⟩
            refine List.mem_filter.mpr ⟨List.mem_map.mpr ⟨p, hp, rfl⟩, ?_⟩
            simpa using ha
        · intro r hr
          rcases List.mem_filter.mp hr with ⟨hr1, _⟩
          rcases List.mem_map.mp hr1 with ⟨q, _, rfl⟩
          rfl
        · calc
            List.Sublist
              ((((db.posts.map (fun p => ({ post := p, comment_count := none } : Row))).filter
                (fun r => r.post.author == profile.id)).map Row.post))
              ((db.posts.map (fun p => ({ post := p, comment_count := none } : Row))).map
                Row.post) :=
              List.Sublist.map Row.post (List.filter_sublist _)
            _ = db.posts := map_post_map_mk db.posts (fun _ => none)
      · intro hne
        exact absurd hact hne
    · rw [if_neg hact]
      refine ⟨_, rfl, ?_, ?_⟩
      · intro hne
        exact absurd hne hact
      · intro _
        rw [queryset_pattern_eq_true, baseFiltered_filter_only]
        refine ⟨?_, ?_, ?_⟩
        · intro p
          constructor
          · intro hp
            rcases List.mem_map.mp hp with ⟨r, hr, rfl⟩
            rcases List.mem_filter.mp hr with ⟨hr1, hr2⟩
            rw [mem_sortByKey] at hr1
            rcases List.mem_map.mp hr1 with ⟨q, hq, rfl⟩
            rcases List.mem_filter.mp hq with ⟨hq1, hq2⟩
            unfold publishedFilter at hq2
            simp only [Bool.and_eq_true, decide_eq_true_eq] at hq2
            exact ⟨hq1, by simpa using hr2, hq2.1.1, hq2.1.2, hq2.2⟩
          · rintro ⟨hp, ha, hpub, hdate, hcat⟩
            refine List.mem_map.mpr
              ⟨{ post := p, comment_count := some (commentCount db p) }, ?_, rfl⟩
            refine List.mem_filter.mpr ⟨?_, by simpa using ha⟩
            rw [mem_sortByKey]
            refine List.mem_map.mpr ⟨p, ?_, rfl⟩
            refine List.mem_filter.mpr ⟨hp, ?_⟩
            unfold publishedFilter
            simp [hpub, hdate, hcat]
        · intro r hr
          rcases List.mem_filter.mp hr with ⟨hr1, _⟩
          rw [mem_sortByKey] at hr1
          rcases List.mem_map.mp hr1 with ⟨q, _, rfl⟩
          rfl
        · exact List.Pairwise.sublist (List.filter_sublist _)
            (newestFirst_sortByKey _)

/-- C4 (amended): witness — alice's profile on the sample database, viewed by
alice herself and by bob. -/
theorem profile_listing_witness :
    (profileRows exDb 3 (some 1) "alice" = none ↔
      ∀ u ∈ exDb.users, u.username ≠ "alice") ∧
    (∀ profile, exDb.users.find? (fun u => u.username == "alice") = some profile →
      ∃ rows, profileRows exDb 3 (some 1) "alice" = some rows ∧
        (some 1 = some profile.id →
          (∀ p, p ∈ rows.map Row.post ↔ p ∈ exDb.posts ∧ p.author = profile.id) ∧
          (∀ r ∈ rows, r.comment_count = none) ∧
          List.Sublist (rows.map Row.post) exDb.posts) ∧
        (some 1 ≠ some profile.id →
          (∀ p, p ∈ rows.map Row.post ↔
            p ∈ exDb.posts ∧ p.author = profile.id ∧ p.is_published = true ∧
              p.pub_date ≤ 3 ∧ categoryIsPublished exDb p = true) ∧
          (∀ r ∈ rows, r.comment_count = some (commentCount exDb r.post)) ∧
          newestFirst rows)) :=
  profile_listing exDb 3 (some 1) "alice"

/-! Claim C7: category listing. -/

theorem specPubliclyVisible_eq_filter (db : Db) (now : Int) (p : Post)
    (cid : Nat) (hcat : p.category = some cid) :
    specPubliclyVisible db now p = publishedFilter db now p := by
  unfold specPubliclyVisible publishedFilter categoryIsPublished
  rw [hcat]
  dsimp only
  cases db.categories.find? (fun c => c.id == cid) with
  | none => simp
  | some c =>
    cases p.is_published <;> cases c.is_published <;>
      cases hd : decide (p.pub_date ≤ now) <;> simp [hd]

theorem categoryPostsRows_eq_some (db : Db) (now : Int) (slug : String)
    (cat : Category)
    (hfind : db.categories.find?
      (fun c => c.slug == slug && c.is_published) = some cat) :
    categoryPostsRows db now slug =
      some (queryset_pattern db now true (some cat) true true) := by
  unfold categoryPostsRows
  rw [hfind]

/-- C7: the category listing answers NotFound exactly when no stored
category both carries the slug and is published; otherwise it lists exactly
the publicly-visible posts whose category is the resolved one, each
annotated with its comment count, ordered newest publication first, under
the same page size (10) as the global index. -/
theorem category_listing (db : Db) (now : Int) (slug : String) :
    (categoryPostsRows db now slug = none ↔
      ∀ c ∈ db.categories, c.slug = slug → c.is_published = false) ∧
    (∀ cat, db.categories.find?
        (fun c => c.slug == slug && c.is_published) = some cat →
      ∃ rows, categoryPostsRows db now slug = some rows ∧
        (∀ p, p ∈ rows.map Row.post ↔
          p ∈ db.posts ∧ p.category = some cat.id ∧
            specPubliclyVisible db now p = true) ∧
        (∀ r ∈ rows, r.comment_count = some (commentCount db r.post)) ∧
        newestFirst rows ∧
        categoryPostsPaginateBy = 10 ∧
        categoryPostsPaginateBy = postListPaginateBy) := by
  constructor
  · cases hfind : db.categories.find? (fun c => c.slug == slug && c.is_published) with
    | none =>
      rw [List.find?_eq_none] at hfind
      constructor
      · intro _ c hc hslug
        have := hfind c hc
        simp only [Bool.and_eq_true, beq_iff_eq, not_and] at this
        simpa using this hslug
      · intro _
        unfold categoryPostsRows
        rw [List.find?_eq_none.mpr hfind]
    | some cat =>
      constructor
      · intro hnone
        rw [categoryPostsRows_eq_some db now slug cat hfind] at hnone
        cases hnone
      · intro hall
        have hmem := List.mem_of_find?_eq_some hfind
        have hpred := List.find?_some hfind
        simp only [Bool.and_eq_true, beq_iff_eq] at hpred
        have := hall cat hmem hpred.1
        rw [this] at hpred
        cases hpred.2
  · intro cat hfind
    have hmem := List.mem_of_find?_eq_some hfind
    have hpred := List.find?_some hfind
    simp only [Bool.and_eq_true, beq_iff_eq] at hpred
    rw [categoryPostsRows_eq_some db now slug cat hfind]
    refine ⟨_, rfl, ?_, ?_, ?_, rfl, rfl⟩
    · intro p
      rw [queryset_pattern_eq_true, mem_map_post_sortByKey, map_post_map_mk,
        baseFiltered_all_filters, List.mem_filter, List.mem_filter]
      constructor
      · rintro ⟨⟨hp, hpub⟩, hcateq⟩
        simp only [Option.map_some, beq_iff_eq] at hcateq
        refine ⟨hp, hcateq, ?_⟩
        rw [specPubliclyVisible_eq_filter db now p cat.id hcateq]
        exact hpub
      · rintro ⟨hp, hcateq, hvis⟩
        rw [specPubliclyVisible_eq_filter db now p cat.id hcateq] at hvis
        exact ⟨⟨hp, hvis⟩, by simp [hcateq]⟩
    · intro r hr
      rw [queryset_pattern_eq_true, mem_sortByKey] at hr
      rcases List.mem_map.mp hr with ⟨q, _, rfl⟩
      rfl
    · rw [queryset_pattern_eq_true]
      exact newestFirst_sortByKey _

/-- C7: witness — the published category "cat" on the sample database. -/
theorem category_listing_witness :
    (categoryPostsRows exDb 3 "cat" = none ↔
      ∀ c ∈ exDb.categories, c.slug = "cat" → c.is_published = false) ∧
    (∀ cat, exDb.categories.find?
        (fun c => c.slug == "cat" && c.is_published) = some cat →
      ∃ rows, categoryPostsRows exDb 3 "cat" = some rows ∧
        (∀ p, p ∈ rows.map Row.post ↔
          p ∈ exDb.posts ∧ p.category = some cat.id ∧
            specPubliclyVisible exDb 3 p = true) ∧
        (∀ r ∈ rows, r.comment_count = some (commentCount exDb r.post)) ∧
        newestFirst rows ∧
        categoryPostsPaginateBy = 10 ∧
        categoryPostsPaginateBy = postListPaginateBy) :=
  category_listing exDb 3 "cat"

end Blogicum
